import Mathlib

/-!
Verification development for the PIMFast identity-resolution and
role-reconciliation core.

Strings are modelled as lists of characters (`Str`).  JavaScript string
methods used by the source are embedded explicitly:
`String.prototype.split('/')` becomes `splitSeg`, and the handful of
anchored regular expressions of the source are embedded as total functions
over the segment decomposition (each embedding is annotated with the regex
it models).  Fallible code returns `Option`/`Except`.  Dates are epoch
milliseconds (`Int`).
-/

/-- Strings as character lists. -/
abbrev Str := List Char

deriving instance DecidableEq for Except

/-- JS `s.split('/')`: decompose a string at every `'/'`.  Never returns
the empty list; the empty string yields `[[]]`, like `''.split('/')`. -/
def splitSeg : Str → List Str
  | [] => [[]]
  | c :: rest =>
    if c = '/' then [] :: splitSeg rest
    else
      match splitSeg rest with
      | [] => [[c]]
      | s :: ss => (c :: s) :: ss

/-- Split a string at its last `'/'`: `splitLastSlash (r ++ '/' :: f) = some (r, f)`
when `f` is slash-free; `none` when the string has no `'/'` at all. -/
def splitLastSlash : Str → Option (Str × Str)
  | [] => none
  | c :: rest =>
    match splitLastSlash rest with
    | some (r, f) => some (c :: r, f)
    | none => if c = '/' then some ([], rest) else none

/-- A `[^/]+` regex segment: nonempty and slash-free. -/
def isSeg (s : Str) : Prop := s ≠ [] ∧ '/' ∉ s

instance (s : Str) : Decidable (isSeg s) := by unfold isSeg; infer_instance

/-- A code point the WHATWG URL machinery passes through a fragment
unchanged: printable ASCII above the space, other than the four fragment
percent-encode-set characters `"` (U+0022), `<` (U+003C), `>` (U+003E)
and U+0060.  Such a character is in particular no ASCII tab/CR/LF (which
URL parsing strips) and no JS regex line terminator. -/
def urlSafeChar (c : Char) : Prop :=
  0x20 < c.toNat ∧ c.toNat < 0x7F ∧ c.toNat ≠ 0x22 ∧ c.toNat ≠ 0x3C ∧
    c.toNat ≠ 0x3E ∧ c.toNat ≠ 0x60

instance (c : Char) : Decidable (urlSafeChar c) := by unfold urlSafeChar; infer_instance

namespace Scope

/-- The six grammar forms of a valid Azure scope string, as documented and
implemented (one regex per form) in `parseResourceId`. -/
inductive Form where
  | tenant (id : Str)
  | managementGroup (id : Str)
  | subscription (id : Str)
  | resourceGroup (sub rg : Str)
  | resource (sub rg provider ty name : Str)
  | childResource (sub rg provider ty name childTy childName : Str)

/-- The scope string denoted by a grammar form. -/
def Form.render : Form → Str
  | .tenant id => "/tenants/".data ++ id
  | .managementGroup id => "/providers/Microsoft.Management/managementGroups/".data ++ id
  | .subscription id => "/subscriptions/".data ++ id
  | .resourceGroup sub rg => "/subscriptions/".data ++ sub ++ "/resourceGroups/".data ++ rg
  | .resource sub rg provider ty name =>
      "/subscriptions/".data ++ sub ++ "/resourceGroups/".data ++ rg ++ "/providers/".data ++
        provider ++ "/".data ++ ty ++ "/".data ++ name
  | .childResource sub rg provider ty name childTy childName =>
      "/subscriptions/".data ++ sub ++ "/resourceGroups/".data ++ rg ++ "/providers/".data ++
        provider ++ "/".data ++ ty ++ "/".data ++ name ++ "/".data ++ childTy ++ "/".data ++ childName

/-- Every variable segment of the form is a `[^/]+` segment. -/
def Form.valid : Form → Prop
  | .tenant id => isSeg id
  | .managementGroup id => isSeg id
  | .subscription id => isSeg id
  | .resourceGroup sub rg => isSeg sub ∧ isSeg rg
  | .resource sub rg provider ty name =>
      isSeg sub ∧ isSeg rg ∧ isSeg provider ∧ isSeg ty ∧ isSeg name
  | .childResource sub rg provider ty name childTy childName =>
      isSeg sub ∧ isSeg rg ∧ isSeg provider ∧ isSeg ty ∧ isSeg name ∧ isSeg childTy ∧ isSeg childName

instance (f : Form) : Decidable f.valid := by unfold Form.valid; cases f <;> infer_instance

/-- The form is not the management-group form. -/
def Form.nonMG : Form → Prop
  | .managementGroup _ => False
  | _ => True

instance (f : Form) : Decidable f.nonMG := by unfold Form.nonMG; cases f <;> infer_instance

/-- Every character of every segment of the form is `urlSafeChar`: the
scope passes through WHATWG URL normalization (tab/CR/LF stripping and
fragment percent-encoding) unchanged, and contains no JS regex line
terminator. -/
def Form.urlSafe : Form → Prop
  | .tenant id => ∀ c ∈ id, urlSafeChar c
  | .managementGroup id => ∀ c ∈ id, urlSafeChar c
  | .subscription id => ∀ c ∈ id, urlSafeChar c
  | .resourceGroup sub rg => (∀ c ∈ sub, urlSafeChar c) ∧ (∀ c ∈ rg, urlSafeChar c)
  | .resource sub rg provider ty name =>
      (∀ c ∈ sub, urlSafeChar c) ∧ (∀ c ∈ rg, urlSafeChar c) ∧
        (∀ c ∈ provider, urlSafeChar c) ∧ (∀ c ∈ ty, urlSafeChar c) ∧
        (∀ c ∈ name, urlSafeChar c)
  | .childResource sub rg provider ty name childTy childName =>
      (∀ c ∈ sub, urlSafeChar c) ∧ (∀ c ∈ rg, urlSafeChar c) ∧
        (∀ c ∈ provider, urlSafeChar c) ∧ (∀ c ∈ ty, urlSafeChar c) ∧
        (∀ c ∈ name, urlSafeChar c) ∧ (∀ c ∈ childTy, urlSafeChar c) ∧
        (∀ c ∈ childName, urlSafeChar c)

instance (f : Form) : Decidable f.urlSafe := by unfold Form.urlSafe; cases f <;> infer_instance

end Scope

namespace CommonAzure

/-!
Embedding of `parseResourceId` from `src/common/azureResourceId.ts`
(the record-based variant whose handlers rebuild the `scope` field from
template literals).  Each source regex is anchored and built from literal
segments and `[^/]+` captures, so matching it is equivalent to a shape
check on `splitSeg`: the string matches iff its `'/'`-decomposition is
`[[], lit₁, …]` with the literal segments equal and each capture nonempty.
Patterns are tried in source order; `type` field of the child-resource
handler is the child type (`m[6]`) and `id`/`child` the child name (`m[7]`),
exactly as in the source.
-/

/-- The tagged union `AzureResourceId` of `src/common/azureResourceId.ts`,
with the fields each pattern handler constructs. -/
inductive AzureResourceId where
  | tenantId (resourceId id tenant : Str)
  | managementGroupId (scope id managementGroup : Str)
  | subscriptionId (scope id subscription : Str)
  | resourceGroupId (scope id subscription resourceGroup : Str)
  | resourceId (scope id subscription resourceGroup provider type : Str)
  | childResourceId (scope id subscription resourceGroup provider type child : Str)
deriving DecidableEq

/-- Tenant pattern `^\/tenants\/([^\/]+)$` and its handler. -/
def matchTenant (r : Str) : Option AzureResourceId :=
  match splitSeg r with
  | [a, b, id] =>
    if a = [] ∧ b = "tenants".data ∧ id ≠ [] then
      some (.tenantId ("/tenants/".data ++ id) id id)
    else none
  | _ => none

/-- Management-group pattern `^\/providers\/Microsoft\.Management\/managementGroups\/([^\/]+)$`. -/
def matchManagementGroup (r : Str) : Option AzureResourceId :=
  match splitSeg r with
  | [a, b, c, d, id] =>
    if a = [] ∧ b = "providers".data ∧ c = "Microsoft.Management".data ∧
        d = "managementGroups".data ∧ id ≠ [] then
      some (.managementGroupId ("/providers/Microsoft.Management/managementGroups/".data ++ id) id id)
    else none
  | _ => none

/-- Subscription pattern `^\/subscriptions\/([^\/]+)$`. -/
def matchSubscription (r : Str) : Option AzureResourceId :=
  match splitSeg r with
  | [a, b, id] =>
    if a = [] ∧ b = "subscriptions".data ∧ id ≠ [] then
      some (.subscriptionId ("/subscriptions/".data ++ id) id id)
    else none
  | _ => none

/-- Resource-group pattern `^\/subscriptions\/([^\/]+)\/resourceGroups\/([^\/]+)$`. -/
def matchResourceGroup (r : Str) : Option AzureResourceId :=
  match splitSeg r with
  | [a, b, sub, c, rg] =>
    if a = [] ∧ b = "subscriptions".data ∧ sub ≠ [] ∧ c = "resourceGroups".data ∧ rg ≠ [] then
      some (.resourceGroupId
        ("/subscriptions/".data ++ sub ++ "/resourceGroups/".data ++ rg) rg sub rg)
    else none
  | _ => none

/-- Resource pattern
`^\/subscriptions\/([^\/]+)\/resourceGroups\/([^\/]+)\/providers\/([^\/]+)\/([^\/]+)\/([^\/]+)$`.
The handler keeps only the resource-group path in `scope`. -/
def matchResource (r : Str) : Option AzureResourceId :=
  match splitSeg r with
  | [a, b, sub, c, rg, d, provider, ty, name] =>
    if a = [] ∧ b = "subscriptions".data ∧ sub ≠ [] ∧ c = "resourceGroups".data ∧ rg ≠ [] ∧
        d = "providers".data ∧ provider ≠ [] ∧ ty ≠ [] ∧ name ≠ [] then
      some (.resourceId
        ("/subscriptions/".data ++ sub ++ "/resourceGroups/".data ++ rg) name sub rg provider ty)
    else none
  | _ => none

/-- Child-resource pattern: resource pattern plus `\/([^\/]+)\/([^\/]+)$`.
The handler keeps the full parent path in `scope`, the child type in
`type` and the child name in both `id` and `child`. -/
def matchChildResource (r : Str) : Option AzureResourceId :=
  match splitSeg r with
  | [a, b, sub, c, rg, d, provider, ty, name, childTy, childName] =>
    if a = [] ∧ b = "subscriptions".data ∧ sub ≠ [] ∧ c = "resourceGroups".data ∧ rg ≠ [] ∧
        d = "providers".data ∧ provider ≠ [] ∧ ty ≠ [] ∧ name ≠ [] ∧ childTy ≠ [] ∧
        childName ≠ [] then
      some (.childResourceId
        ("/subscriptions/".data ++ sub ++ "/resourceGroups/".data ++ rg ++ "/providers/".data ++
          provider ++ "/".data ++ ty ++ "/".data ++ name)
        childName sub rg provider childTy childName)
    else none
  | _ => none

/-- `parseResourceId` of `src/common/azureResourceId.ts`: try the six
patterns in source order, `none` (the thrown `Error`) when none matches. -/
def parseResourceId (r : Str) : Option AzureResourceId :=
  (matchTenant r).orElse fun _ =>
  (matchManagementGroup r).orElse fun _ =>
  (matchSubscription r).orElse fun _ =>
  (matchResourceGroup r).orElse fun _ =>
  (matchResource r).orElse fun _ =>
  matchChildResource r

/-- Modelled from the spec sentence of C8 ("the scope string reconstructed
from the parsed identity's fields"): rebuild the original scope string
from the fields of a parsed identity. -/
def reconstructScope : AzureResourceId → Str
  | .tenantId resourceId _ _ => resourceId
  | .managementGroupId scope _ _ => scope
  | .subscriptionId scope _ _ => scope
  | .resourceGroupId scope _ _ _ => scope
  | .resourceId scope id _ _ provider ty =>
      scope ++ "/providers/".data ++ provider ++ "/".data ++ ty ++ "/".data ++ id
  | .childResourceId scope _ _ _ _ ty child => scope ++ "/".data ++ ty ++ "/".data ++ child

end CommonAzure

namespace ApiAzure

/-!
Embedding of the class-based `parseResourceId` of `src/api/azureResourceId.ts`
(the module used by `getResourceIdFromPortalUrl` and
`fetchTenantIdFromResourceId`).  Its six regexes are identical to the
`CommonAzure` ones; only the handlers differ: every class instance stores
the original input string as `resourceId`, and the child-resource handler
stores the parent type in `type`, the parent name in `parentResource` and
drops the child type. -/

/-- The `AzureResourceId` class hierarchy of `src/api/azureResourceId.ts`
as a tagged union (one constructor per concrete class). -/
inductive AzureResourceId where
  | tenantId (resourceId id : Str)
  | managementGroupId (resourceId id : Str)
  | subscriptionId (resourceId id : Str)
  | resourceGroupId (resourceId id subscription : Str)
  | resourceId (rid id subscription provider type resourceGroup : Str)
  | childResourceId (rid id subscription provider type resourceGroup parentResource : Str)
deriving DecidableEq

/-- `parseResourceId` of `src/api/azureResourceId.ts`: same six anchored
regexes, tried in source order, class-instance handlers. -/
def parseResourceId (r : Str) : Option AzureResourceId :=
  match splitSeg r with
  | [a, b, id] =>
    if a = [] ∧ b = "tenants".data ∧ id ≠ [] then some (.tenantId r id)
    else if a = [] ∧ b = "subscriptions".data ∧ id ≠ [] then some (.subscriptionId r id)
    else none
  | [a, b, c, d, id] =>
    if a = [] ∧ b = "providers".data ∧ c = "Microsoft.Management".data ∧
        d = "managementGroups".data ∧ id ≠ [] then
      some (.managementGroupId r id)
    else if a = [] ∧ b = "subscriptions".data ∧ c ≠ [] ∧ d = "resourceGroups".data ∧ id ≠ [] then
      some (.resourceGroupId r id c)
    else none
  | [a, b, sub, c, rg, d, provider, ty, id] =>
    if a = [] ∧ b = "subscriptions".data ∧ sub ≠ [] ∧ c = "resourceGroups".data ∧ rg ≠ [] ∧
        d = "providers".data ∧ provider ≠ [] ∧ ty ≠ [] ∧ id ≠ [] then
      some (.resourceId r id sub provider ty rg)
    else none
  | [a, b, sub, c, rg, d, provider, ty, name, childTy, id] =>
    if a = [] ∧ b = "subscriptions".data ∧ sub ≠ [] ∧ c = "resourceGroups".data ∧ rg ≠ [] ∧
        d = "providers".data ∧ provider ≠ [] ∧ ty ≠ [] ∧ name ≠ [] ∧ childTy ≠ [] ∧ id ≠ [] then
      some (.childResourceId r id sub provider ty rg name)
    else none
  | _ => none

end ApiAzure

namespace PortalUrl

/-- The pieces of `new URL(...)` that `getResourceIdFromPortalUrl` reads.
Models the WHATWG URL constructor for `https://host...` URLs without
userinfo or port: `hostname` is the (lowercased) authority up to the first
of `/ # ? :`, and `hash` is the fragment from the first `#` on (empty when
there is no fragment, like `url.hash`). -/
structure UrlParts where
  hostname : Str
  hash : Str

/-- WHATWG URL parsing first removes every ASCII tab, CR and LF from the
input string. -/
def stripTabCRLF (s : Str) : Str :=
  s.filter fun c => ¬(c = '\t' ∨ c = '\r' ∨ c = '\n')

/-- The WHATWG fragment percent-encode set: C0 controls and space
(code points up to U+0020), everything above U+007E, and the four
characters `"` (U+0022), `<` (U+003C), `>` (U+003E), U+0060. -/
def inFragmentEncodeSet (c : Char) : Prop :=
  c.toNat ≤ 0x20 ∨ 0x7E < c.toNat ∨ c.toNat = 0x22 ∨ c.toNat = 0x3C ∨
    c.toNat = 0x3E ∨ c.toNat = 0x60

instance (c : Char) : Decidable (inFragmentEncodeSet c) := by
  unfold inFragmentEncodeSet; infer_instance

/-- Uppercase hexadecimal digit, as percent-encoding emits it. -/
def hexDigit (n : Nat) : Char :=
  if n < 10 then Char.ofNat (0x30 + n) else Char.ofNat (0x41 + (n - 10))

/-- `%XX` escape of one byte. -/
def percentEncodeByte (b : UInt8) : Str :=
  ['%', hexDigit (b.toNat / 16), hexDigit (b.toNat % 16)]

/-- WHATWG fragment serialization: each code point in the fragment
percent-encode set is replaced by the `%XX` escapes of its UTF-8 bytes;
every other code point passes through unchanged. -/
def encodeFragment : Str → Str
  | [] => []
  | c :: rest =>
    (if inFragmentEncodeSet c then (String.utf8EncodeChar c).flatMap percentEncodeByte
     else [c]) ++ encodeFragment rest

/-- Model of `new URL(...)` on an already tab/CR/LF-stripped input
(restricted as described on `UrlParts`); `none` is the constructor
throwing on an invalid URL.  `url.hash` is `'#'` plus the
percent-encoded fragment, or empty when the fragment is empty. -/
def parseUrlCore (s : Str) : Option UrlParts :=
  if "https://".data.isPrefixOf s then
    let rest := s.drop 8
    let hostname := rest.takeWhile fun c => ¬(c = '/' ∨ c = '#' ∨ c = '?' ∨ c = ':')
    if hostname = [] then none
    else
      let afterHost := rest.drop hostname.length
      let frag := afterHost.dropWhile (· ≠ '#')
      let hash : Str :=
        match frag with
        | [] => []
        | _ :: fragBody => if fragBody = [] then [] else '#' :: encodeFragment fragBody
      some { hostname := hostname.map Char.toLower, hash }
  else none

/-- Model of `new URL(portalUrl)`: strip ASCII tab/CR/LF, then parse. -/
def parseUrl (s : Str) : Option UrlParts :=
  parseUrlCore (stripTabCRLF s)

/-- A code point JS regex `.` does NOT match: the ECMAScript line
terminators LF, CR, U+2028 and U+2029. -/
def isJsLineTerminator (c : Char) : Prop :=
  c = '\n' ∨ c = '\r' ∨ c.toNat = 0x2028 ∨ c.toNat = 0x2029

instance (c : Char) : Decidable (isJsLineTerminator c) := by
  unfold isJsLineTerminator; infer_instance

/-- The tail `(?<resourceId>\/.+)\/[^/]+?$` of the portal-hash regex,
applied to the text after the `/resource` literal: the greedy `\/.+`
forces the split at the last `'/'`; the final `[^/]+?` segment must be
nonempty, and `.` matches no line terminator (LF, CR, U+2028, U+2029). -/
def matchResourceIdTail (w : Str) : Option Str :=
  match splitLastSlash w with
  | some (r, f) =>
    match r with
    | '/' :: rest =>
      if rest ≠ [] ∧ (∀ c ∈ rest, ¬isJsLineTerminator c) ∧ f ≠ [] then some ('/' :: rest)
      else none
    | _ => none
  | none => none

/-- One attempt of the portal-hash regex
`#@(?<tenant>[^/]+)?\/resource(?<resourceId>\/.+)\/[^/]+?$` at the current
position: the optional tenant is the maximal slash-free run after `#@`
(shorter runs cannot be followed by the literal `/`), then the literal
`/resource`, then the tail. -/
def tryMarker : Str → Option Str
  | '#' :: '@' :: u =>
    let t := u.takeWhile (· ≠ '/')
    let v := u.drop t.length
    if "/resource".data.isPrefixOf v then matchResourceIdTail (v.drop 9) else none
  | _ => none

/-- `hash.match(regex)` for the portal-hash regex: leftmost match wins, so
scan positions left to right. Returns the `resourceId` capture. -/
def matchPortalHash : Str → Option Str
  | [] => none
  | c :: rest =>
    match tryMarker (c :: rest) with
    | some r => some r
    | none => matchPortalHash rest

/-- `getAzurePortalUrl` of `src/api/azureResourceId.ts`: management groups
get a drilldown-blade URL keyed by the trailing segment (`split('/').pop()`,
interpolated as `"undefined"` were it absent); everything else gets the
generic `#@/resource` route. -/
def getAzurePortalUrl (scope : Str) (scopeType : Option Str) : Str :=
  if scopeType = some "managementgroup".data then
    let mgId := ((splitSeg scope).getLast?).getD "undefined".data
    "https://portal.azure.com/#view/Microsoft_Azure_ManagementGroups/ManagementGroupDrilldownMenuBlade/~/overview/mgId/".data ++ mgId
  else
    "https://portal.azure.com/#@/resource".data ++ scope

/-- `getResourceIdFromPortalUrl` of `src/api/azureResourceId.ts`.  Errors
carry the thrown message; any error raised inside the body is wrapped by
the outer catch into `Invalid Azure portal URL ...` (the URL-constructor
failure message is abbreviated to `Invalid URL`).  Note the fallback
branch parses `parts[0]` — the text before the FIRST slash — and lets a
failure of that parse propagate. -/
def getResourceIdFromPortalUrlBody (portalUrl : Str) : Except Str Str :=
  match parseUrl portalUrl with
  | none => .error "Invalid URL".data
  | some url =>
    if url.hostname ≠ "portal.azure.com".data then
      .error "Does not begin with portal.azure.com".data
    else
      match matchPortalHash url.hash with
      | none => .error "Could not extract base resource ID from url".data
      | some resourceIdBase =>
        match ApiAzure.parseResourceId resourceIdBase with
        | some _ =>
          if resourceIdBase = [] then .error "Unable to extract resource ID from portal URL".data
          else .ok resourceIdBase
        | none =>
          let parts := splitSeg resourceIdBase
          if parts.length > 1 then
            match ApiAzure.parseResourceId (parts.headD []) with
            | some _ =>
              if parts.headD [] = [] then
                .error "Unable to extract resource ID from portal URL".data
              else .ok (parts.headD [])
            | none =>
              .error ((parts.headD []) ++ " is not a valid Azure Resource ID. Supported formats: tenant, management group, subscription, resource group, resource, child resource.".data)
          else .error "Unable to extract resource ID from portal URL".data

/-- The outer `catch`: wrap any thrown message into
`Invalid Azure portal URL ...`. -/
def wrapPortalError (portalUrl : Str) : Except Str Str → Except Str Str
  | .ok r => .ok r
  | .error m => .error ("Invalid Azure portal URL ".data ++ portalUrl ++ ": ".data ++ m)

def getResourceIdFromPortalUrl (portalUrl : Str) : Except Str Str :=
  wrapPortalError portalUrl (getResourceIdFromPortalUrlBody portalUrl)

end PortalUrl

/-- The `sourceType` tag of the common role model. -/
inductive SourceType where
  | arm
  | graph
  | group
deriving DecidableEq

/-- `CommonRoleSchedule` ("eligible role" record) of
`src/model/CommonRoleSchedule.ts`.  The `originalSchedule` reference to
the provider-native record is omitted: it is carried along verbatim and
no embedded operation reads it. -/
structure CommonRoleSchedule where
  id : Str
  scope : Str
  roleDefinitionId : Str
  roleDefinitionDisplayName : Str
  scopeDisplayName : Str
  scopeType : Option Str
  principalId : Str
  principalDisplayName : Option Str
  startDateTime : Option Int
  endDateTime : Option Int
  sourceType : SourceType
deriving DecidableEq

/-- `CommonRoleAssignmentScheduleInstance` ("active role" record) of
`src/model/CommonRoleAssignmentScheduleInstance.ts`, without the unread
`originalAssignment` reference. -/
structure CommonRoleAssignmentScheduleInstance where
  id : Str
  scope : Str
  roleDefinitionId : Str
  roleDefinitionDisplayName : Option Str
  scopeDisplayName : Option Str
  scopeType : Option Str
  principalId : Str
  principalDisplayName : Option Str
  startDateTime : Option Int
  endDateTime : Option Int
  status : Option Str
  linkedRoleEligibilityScheduleInstanceId : Option Str
  sourceType : SourceType
deriving DecidableEq

/-- The fields of MSAL `AccountInfo` this core reads. -/
structure AccountInfo where
  homeAccountId : Str
  localAccountId : Str
  tenantId : Str
deriving DecidableEq

/-- `EligibleRole` of `src/model/EligibleRole.ts`: a schedule paired with
the account it was fetched for, plus the row id. -/
structure EligibleRole where
  id : Str
  account : AccountInfo
  schedule : CommonRoleSchedule
deriving DecidableEq

/-- `expandedProperties.principal` of the ARM SDK record. -/
structure ArmExpandedPrincipal where
  displayName : Option Str
deriving DecidableEq

/-- `expandedProperties.roleDefinition` of the ARM SDK record. -/
structure ArmExpandedRoleDefinition where
  displayName : Option Str
deriving DecidableEq

/-- `expandedProperties.scope` of the ARM SDK record. -/
structure ArmExpandedScope where
  displayName : Option Str
  type : Option Str
deriving DecidableEq

/-- `expandedProperties` of the ARM SDK records. -/
structure ArmExpandedProperties where
  principal : Option ArmExpandedPrincipal
  roleDefinition : Option ArmExpandedRoleDefinition
  scope : Option ArmExpandedScope
deriving DecidableEq

/-- The fields of the ARM SDK `RoleEligibilityScheduleInstance` the
normalizer reads (all optional in the SDK's type). -/
structure RoleEligibilityScheduleInstance where
  id : Option Str
  scope : Option Str
  roleDefinitionId : Option Str
  principalId : Option Str
  startDateTime : Option Int
  endDateTime : Option Int
  expandedProperties : Option ArmExpandedProperties
deriving DecidableEq

/-- The fields of the ARM SDK `RoleAssignmentScheduleInstance` the
normalizer reads. -/
structure RoleAssignmentScheduleInstance where
  id : Option Str
  scope : Option Str
  roleDefinitionId : Option Str
  principalId : Option Str
  startDateTime : Option Int
  endDateTime : Option Int
  status : Option Str
  linkedRoleEligibilityScheduleInstanceId : Option Str
  expandedProperties : Option ArmExpandedProperties
deriving DecidableEq

/-- `armScheduleToCommon` of `src/model/EligibleRole.ts` (the schedule
normalizer for ARM records): `??`-defaults throughout, never fails.
`x ? new Date(x) : undefined` keeps an optional date as is (a `Date` is
always truthy). -/
def armScheduleToCommon (schedule : RoleEligibilityScheduleInstance) : CommonRoleSchedule :=
  { id := schedule.id.getD []
    scope := schedule.scope.getD []
    roleDefinitionId := schedule.roleDefinitionId.getD []
    roleDefinitionDisplayName :=
      ((schedule.expandedProperties.bind (·.roleDefinition)).bind (·.displayName)).getD
        "Unknown Role".data
    scopeDisplayName :=
      ((schedule.expandedProperties.bind (·.scope)).bind (·.displayName)).getD
        "Unknown Scope".data
    scopeType := (schedule.expandedProperties.bind (·.scope)).bind (·.type)
    principalId := schedule.principalId.getD []
    principalDisplayName := (schedule.expandedProperties.bind (·.principal)).bind (·.displayName)
    startDateTime := schedule.startDateTime
    endDateTime := schedule.endDateTime
    sourceType := .arm }

/-- `fromArmAssignment` of
`src/model/CommonRoleAssignmentScheduleInstance.ts`: `??`-defaults for the
mandatory identifiers, display names left absent when missing. -/
def fromArmAssignment (assignment : RoleAssignmentScheduleInstance) :
    CommonRoleAssignmentScheduleInstance :=
  { id := assignment.id.getD []
    scope := assignment.scope.getD []
    roleDefinitionId := assignment.roleDefinitionId.getD []
    roleDefinitionDisplayName :=
      (assignment.expandedProperties.bind (·.roleDefinition)).bind (·.displayName)
    scopeDisplayName := (assignment.expandedProperties.bind (·.scope)).bind (·.displayName)
    scopeType := (assignment.expandedProperties.bind (·.scope)).bind (·.type)
    principalId := assignment.principalId.getD []
    principalDisplayName := (assignment.expandedProperties.bind (·.principal)).bind (·.displayName)
    startDateTime := assignment.startDateTime
    endDateTime := assignment.endDateTime
    status := assignment.status
    linkedRoleEligibilityScheduleInstanceId := assignment.linkedRoleEligibilityScheduleInstanceId
    sourceType := .arm }

/-- `RoleToStatusLookup`, a JS object keyed by role id, as an association
list with JS object-assignment semantics (`recordSet`). -/
abbrev RoleToStatusLookup := List (Str × Option CommonRoleAssignmentScheduleInstance)

/-- JS `obj[k] = v`: overwrite the existing entry for `k` or append one. -/
def recordSet (l : RoleToStatusLookup) (k : Str)
    (v : Option CommonRoleAssignmentScheduleInstance) : RoleToStatusLookup :=
  match l with
  | [] => [(k, v)]
  | (k1, v1) :: rest => if k1 = k then (k, v) :: rest else (k1, v1) :: recordSet rest k v

/-- Whether `k` is a key of the object (`k in obj`). -/
def recordGet (l : RoleToStatusLookup) (k : Str) :
    Option (Option CommonRoleAssignmentScheduleInstance) :=
  (l.find? fun e => e.1 == k).map (·.2)

/-- JS `obj[k]` as read by the status predicates: `undefined` both when the
key is absent and when the stored value is `undefined`. -/
def recordGetValue (l : RoleToStatusLookup) (k : Str) :
    Option CommonRoleAssignmentScheduleInstance :=
  (recordGet l k).bind fun v => v

/-- The matching callback inside `roleStatusQuery` of
`src/sidepanel/App.tsx`: ARM roles join on
`linkedRoleEligibilityScheduleInstanceId`, same-`sourceType` graph/group
roles join on the `(roleDefinitionId, scope, principalId)` triple. -/
def roleAssignmentMatches (role : EligibleRole)
    (assignment : CommonRoleAssignmentScheduleInstance) : Bool :=
  if role.schedule.sourceType = SourceType.arm ∧ assignment.sourceType = SourceType.arm then
    assignment.linkedRoleEligibilityScheduleInstanceId == some role.schedule.id
  else if role.schedule.sourceType = assignment.sourceType then
    assignment.roleDefinitionId == role.schedule.roleDefinitionId &&
      assignment.scope == role.schedule.scope &&
      assignment.principalId == role.schedule.principalId
  else false

/-- The `queryFn` of `roleStatusQuery` in `src/sidepanel/App.tsx`: for each
eligible role store `roleAssignments.find(...)` — the FIRST matching
assignment, or `undefined` — under the role's id. -/
def roleStatusQueryFn (eligibleRoles : List EligibleRole)
    (roleAssignments : List CommonRoleAssignmentScheduleInstance) : RoleToStatusLookup :=
  eligibleRoles.foldl
    (fun lookup role =>
      recordSet lookup role.id (roleAssignments.find? (roleAssignmentMatches role)))
    []

/-- `isEligibleRoleActivated` of `src/sidepanel/App.tsx`: ARM assignments
are active when `status === KnownStatus.Provisioned` (`"Provisioned"`),
graph/group ones when `status` is `"Activated"` or `"Active"`. -/
def isEligibleRoleActivated (data : Option RoleToStatusLookup) (role : EligibleRole) : Bool :=
  match data with
  | none => false
  | some lookup =>
    match recordGetValue lookup role.id with
    | none => false
    | some assignment =>
      if assignment.sourceType = SourceType.arm then
        assignment.status == some "Provisioned".data
      else
        assignment.status == some "Activated".data || assignment.status == some "Active".data

/-- `dayjs(now).diff(dayjs(startT), 'minutes')`: millisecond difference
divided by 60000 and truncated toward zero (dayjs `absFloor`), which is
`Int.tdiv`. -/
def dayjsDiffMinutes (now startT : Int) : Int := Int.tdiv (now - startT) 60000

/-- `isEligibleRoleNewlyActivated` of `src/sidepanel/App.tsx`: false when
the lookup is missing, the role has no matched assignment, or the matched
assignment has no `startDateTime`; otherwise whether the truncated minute
difference from now is below `AZURE_PIM_MIN_ACTIVATION_TIME = 5`. -/
def isEligibleRoleNewlyActivated (data : Option RoleToStatusLookup) (now : Int)
    (role : EligibleRole) : Bool :=
  match data with
  | none => false
  | some lookup =>
    match recordGetValue lookup role.id with
    | none => false
    | some assignment =>
      match assignment.startDateTime with
      | none => false
      | some startT => decide (dayjsDiffMinutes now startT < 5)

/-- The result of `fetchManagementGroup` as read by the tenant resolver. -/
structure ManagementGroupInfo where
  tenantId : Option Str

/-- One entry of the account's cached subscription list (ARM SDK
`Subscription`; both fields optional in the SDK's type). -/
structure AzureSubscription where
  subscriptionId : Option Str
  tenantId : Option Str
deriving DecidableEq

/-- The injected environment of `fetchTenantIdFromResourceId`: the
account's home tenant, the management-group directory lookup, and the
account's cached subscription list (`fetchSubscriptions`). -/
structure TenantEnv where
  accountTenantId : Str
  managementGroups : Str → ManagementGroupInfo
  subscriptions : List AzureSubscription

/-- A thrown JS error, tagged by its class: plain `Error` or the
`FetchTenantSubscriptionNotFoundError` subclass declared in
`src/components/ResolvedTenantName.tsx`. -/
inductive JsError where
  | error (message : Str)
  | fetchTenantSubscriptionNotFound (message : Str)
deriving DecidableEq

/-- `fetchTenantIdFromResourceId` of `src/components/ResolvedTenantName.tsx`
(lines 424-456).  `/` and `/administrativeUnits/*` scopes and tenant
scopes resolve to the account's home tenant; management groups are
resolved remotely; subscription-rooted scopes look the subscription id up
in the cached list and fail with a plain `Error('SubscriptionId not
found')` when it is absent.  The trailing `if (!subscriptionId)` also
fires on an empty-string id. -/
def fetchTenantIdFromResourceId (env : TenantEnv) (resourceId : Str) :
    Except JsError (Option Str) :=
  if resourceId = "/".data ∨ "/administrativeUnits/".data.isPrefixOf resourceId then
    .ok (some env.accountTenantId)
  else
    match ApiAzure.parseResourceId resourceId with
    | none =>
      .error (.error (resourceId ++ " is not a valid Azure Resource ID. Supported formats: tenant, management group, subscription, resource group, resource, child resource.".data))
    | some parsed =>
      match parsed with
      | .tenantId _ _ => .ok (some env.accountTenantId)
      | .managementGroupId _ id => .ok (env.managementGroups id).tenantId
      | _ =>
        let subscriptionId : Option Str :=
          match parsed with
          | .childResourceId _ _ subscription _ _ _ _ => some subscription
          | .resourceId _ _ subscription _ _ _ => some subscription
          | .resourceGroupId _ _ subscription => some subscription
          | .subscriptionId _ id => some id
          | _ => none
        match subscriptionId with
        | none => .error (.error "Failed to parse subscription ID from schedule scope".data)
        | some sid =>
          if sid = [] then
            .error (.error "Failed to parse subscription ID from schedule scope".data)
          else
            match env.subscriptions.find? (fun s => s.subscriptionId == some sid) with
            | none => .error (.error "SubscriptionId not found".data)
            | some subscription => .ok subscription.tenantId

/-- A concrete account for the example records below. -/
def acct1 : AccountInfo :=
  { homeAccountId := "home1".data, localAccountId := "local1".data, tenantId := "tenant1".data }

/-- A concrete graph-sourced eligible schedule. -/
def graphSchedule1 : CommonRoleSchedule :=
  { id := "e1".data, scope := "/".data, roleDefinitionId := "rd1".data
    roleDefinitionDisplayName := "Role One".data, scopeDisplayName := "Directory".data
    scopeType := some "directory".data, principalId := "p1".data, principalDisplayName := none
    startDateTime := none, endDateTime := none, sourceType := .graph }

/-- A concrete graph-sourced eligible role. -/
def graphRole1 : EligibleRole :=
  { id := "home1-graph-e1".data, account := acct1, schedule := graphSchedule1 }

/-- A graph assignment carrying the same `(roleDefinitionId, scope,
principalId)` triple as `graphRole1`. -/
def graphAssignment1 : CommonRoleAssignmentScheduleInstance :=
  { id := "a1".data, scope := "/".data, roleDefinitionId := "rd1".data
    roleDefinitionDisplayName := none, scopeDisplayName := none, scopeType := none
    principalId := "p1".data, principalDisplayName := none
    startDateTime := none, endDateTime := none, status := some "Activated".data
    linkedRoleEligibilityScheduleInstanceId := none, sourceType := .graph }

/-- A second, distinct graph assignment with the same triple. -/
def graphAssignment2 : CommonRoleAssignmentScheduleInstance :=
  { graphAssignment1 with id := "a2".data }

/-- A concrete ARM-sourced eligible role. -/
def armRole1 : EligibleRole :=
  { id := "home1-arm-armE1".data, account := acct1
    schedule :=
      { graphSchedule1 with
        id := "armE1".data
        scope := "/subscriptions/abc".data
        sourceType := .arm } }

/-- An ARM assignment linked to `armRole1` that is NOT in the provisioned
state (`status` is absent) but started at time 0. -/
def armAssignmentPending : CommonRoleAssignmentScheduleInstance :=
  { graphAssignment1 with
    id := "aa1".data
    scope := "/subscriptions/abc".data
    status := none
    startDateTime := some 0
    linkedRoleEligibilityScheduleInstanceId := some "armE1".data
    sourceType := .arm }

/-- A status lookup mapping `armRole1` to `armAssignmentPending`. -/
def lookupPending : RoleToStatusLookup := [(armRole1.id, some armAssignmentPending)]

/-- A resolver environment whose cached subscription list is empty. -/
def emptyTenantEnv : TenantEnv :=
  { accountTenantId := "tenant1".data
    managementGroups := fun _ => { tenantId := none }
    subscriptions := [] }

/-- An ARM eligibility record with every optional field absent — in
particular both mandatory identifiers. -/
def emptyArmSchedule : RoleEligibilityScheduleInstance :=
  { id := none, scope := none, roleDefinitionId := none, principalId := none
    startDateTime := none, endDateTime := none, expandedProperties := none }

/-- An ARM assignment record with every optional field absent. -/
def emptyArmAssignment : RoleAssignmentScheduleInstance :=
  { id := none, scope := none, roleDefinitionId := none, principalId := none
    startDateTime := none, endDateTime := none, status := none
    linkedRoleEligibilityScheduleInstanceId := none, expandedProperties := none }

/-! ### String-splitting lemmas -/

theorem splitSeg_ne_nil : ∀ s : Str, splitSeg s ≠ []
  | [] => by simp [splitSeg]
  | c :: rest => by
    simp only [splitSeg]
    split
    · simp
    · split <;> simp

theorem splitSeg_cons_slash (t : Str) : splitSeg ('/' :: t) = [] :: splitSeg t := by
  simp [splitSeg]

theorem splitSeg_noSlash : ∀ s : Str, '/' ∉ s → splitSeg s = [s]
  | [], _ => rfl
  | c :: rest, h => by
    have h1 : ¬c = '/' := fun hc => h (by simp [hc])
    have h2 : '/' ∉ rest := fun hm => h (List.mem_cons_of_mem _ hm)
    simp only [splitSeg, if_neg h1, splitSeg_noSlash rest h2]

theorem splitSeg_append_slash : ∀ s : Str, '/' ∉ s → ∀ t : Str,
    splitSeg (s ++ '/' :: t) = s :: splitSeg t
  | [], _, t => splitSeg_cons_slash t
  | c :: rest, h, t => by
    have h1 : ¬c = '/' := fun hc => h (by simp [hc])
    have h2 : '/' ∉ rest := fun hm => h (List.mem_cons_of_mem _ hm)
    simp only [List.cons_append, splitSeg, if_neg h1, List.append_eq]
    rw [splitSeg_append_slash rest h2 t]

theorem splitLastSlash_noSlash : ∀ s : Str, '/' ∉ s → splitLastSlash s = none
  | [], _ => rfl
  | c :: rest, h => by
    have h1 : ¬c = '/' := fun hc => h (by simp [hc])
    have h2 : '/' ∉ rest := fun hm => h (List.mem_cons_of_mem _ hm)
    simp only [splitLastSlash, splitLastSlash_noSlash rest h2, if_neg h1]

theorem splitLastSlash_append : ∀ r : Str, ∀ f : Str, '/' ∉ f →
    splitLastSlash (r ++ '/' :: f) = some (r, f)
  | [], f, h => by
    simp [splitLastSlash, splitLastSlash_noSlash f h]
  | c :: rest, f, h => by
    simp only [List.cons_append, splitLastSlash, List.append_eq]
    rw [splitLastSlash_append rest f h]

/-! ### `splitSeg` of each rendered grammar form -/

theorem splitSeg_render_tenant (id : Str) (h : '/' ∉ id) :
    splitSeg (Scope.Form.render (.tenant id)) = [[], "tenants".data, id] := by
  have e : Scope.Form.render (.tenant id) = '/' :: ("tenants".data ++ '/' :: id) := rfl
  rw [e, splitSeg_cons_slash, splitSeg_append_slash _ (by decide), splitSeg_noSlash id h]

theorem splitSeg_render_mg (id : Str) (h : '/' ∉ id) :
    splitSeg (Scope.Form.render (.managementGroup id)) =
      [[], "providers".data, "Microsoft.Management".data, "managementGroups".data, id] := by
  have e : Scope.Form.render (.managementGroup id) =
      '/' :: ("providers".data ++ '/' :: ("Microsoft.Management".data ++ '/' ::
        ("managementGroups".data ++ '/' :: id))) := rfl
  rw [e, splitSeg_cons_slash, splitSeg_append_slash _ (by decide),
    splitSeg_append_slash _ (by decide), splitSeg_append_slash _ (by decide),
    splitSeg_noSlash id h]

theorem splitSeg_render_sub (id : Str) (h : '/' ∉ id) :
    splitSeg (Scope.Form.render (.subscription id)) = [[], "subscriptions".data, id] := by
  have e : Scope.Form.render (.subscription id) = '/' :: ("subscriptions".data ++ '/' :: id) := rfl
  rw [e, splitSeg_cons_slash, splitSeg_append_slash _ (by decide), splitSeg_noSlash id h]

theorem splitSeg_render_rg (sub rg : Str) (hs : '/' ∉ sub) (hr : '/' ∉ rg) :
    splitSeg (Scope.Form.render (.resourceGroup sub rg)) =
      [[], "subscriptions".data, sub, "resourceGroups".data, rg] := by
  have e : Scope.Form.render (.resourceGroup sub rg) =
      '/' :: ("subscriptions".data ++ '/' :: (sub ++ '/' :: ("resourceGroups".data ++ '/' :: rg))) := by
    simp only [Scope.Form.render, List.append_assoc]
    rfl
  rw [e, splitSeg_cons_slash, splitSeg_append_slash _ (by decide),
    splitSeg_append_slash sub hs, splitSeg_append_slash _ (by decide), splitSeg_noSlash rg hr]

theorem splitSeg_render_resource (sub rg p ty n : Str) (hs : '/' ∉ sub) (hr : '/' ∉ rg)
    (hp : '/' ∉ p) (ht : '/' ∉ ty) (hn : '/' ∉ n) :
    splitSeg (Scope.Form.render (.resource sub rg p ty n)) =
      [[], "subscriptions".data, sub, "resourceGroups".data, rg, "providers".data, p, ty, n] := by
  have e : Scope.Form.render (.resource sub rg p ty n) =
      '/' :: ("subscriptions".data ++ '/' :: (sub ++ '/' :: ("resourceGroups".data ++ '/' ::
        (rg ++ '/' :: ("providers".data ++ '/' :: (p ++ '/' :: (ty ++ '/' :: n))))))) := by
    simp only [Scope.Form.render, List.append_assoc]
    rfl
  rw [e, splitSeg_cons_slash, splitSeg_append_slash _ (by decide),
    splitSeg_append_slash sub hs, splitSeg_append_slash _ (by decide),
    splitSeg_append_slash rg hr, splitSeg_append_slash _ (by decide),
    splitSeg_append_slash p hp, splitSeg_append_slash ty ht, splitSeg_noSlash n hn]

theorem splitSeg_render_child (sub rg p ty n cty cn : Str) (hs : '/' ∉ sub) (hr : '/' ∉ rg)
    (hp : '/' ∉ p) (ht : '/' ∉ ty) (hn : '/' ∉ n) (hct : '/' ∉ cty) (hcn : '/' ∉ cn) :
    splitSeg (Scope.Form.render (.childResource sub rg p ty n cty cn)) =
      [[], "subscriptions".data, sub, "resourceGroups".data, rg, "providers".data, p, ty, n,
        cty, cn] := by
  have e : Scope.Form.render (.childResource sub rg p ty n cty cn) =
      '/' :: ("subscriptions".data ++ '/' :: (sub ++ '/' :: ("resourceGroups".data ++ '/' ::
        (rg ++ '/' :: ("providers".data ++ '/' :: (p ++ '/' :: (ty ++ '/' ::
          (n ++ '/' :: (cty ++ '/' :: cn))))))))) := by
    simp only [Scope.Form.render, List.append_assoc]
    rfl
  rw [e, splitSeg_cons_slash, splitSeg_append_slash _ (by decide),
    splitSeg_append_slash sub hs, splitSeg_append_slash _ (by decide),
    splitSeg_append_slash rg hr, splitSeg_append_slash _ (by decide),
    splitSeg_append_slash p hp, splitSeg_append_slash ty ht, splitSeg_append_slash n hn,
    splitSeg_append_slash cty hct, splitSeg_noSlash cn hcn]

/-! ### C8: parse round-trips over the six grammar forms -/

/-- C8: for every valid scope string in each of the six grammar forms
(tenant, management group, subscription, resource group, resource, child
resource), `parseResourceId` succeeds, and the scope string reconstructed
from the returned identity's fields equals the original input string. -/
theorem parseResourceId_roundtrips_every_form (f : Scope.Form) (hv : f.valid) :
    ∃ v, CommonAzure.parseResourceId f.render = some v ∧
      CommonAzure.reconstructScope v = f.render := by
  cases f with
  | tenant id =>
    refine ⟨.tenantId ("/tenants/".data ++ id) id id, ?_, rfl⟩
    have hsplit := splitSeg_render_tenant id hv.2
    unfold CommonAzure.parseResourceId CommonAzure.matchTenant CommonAzure.matchManagementGroup
      CommonAzure.matchSubscription CommonAzure.matchResourceGroup CommonAzure.matchResource
      CommonAzure.matchChildResource
    rw [hsplit]
    simp [hv.1]
  | managementGroup id =>
    refine ⟨.managementGroupId
      ("/providers/Microsoft.Management/managementGroups/".data ++ id) id id, ?_, rfl⟩
    have hsplit := splitSeg_render_mg id hv.2
    unfold CommonAzure.parseResourceId CommonAzure.matchTenant CommonAzure.matchManagementGroup
      CommonAzure.matchSubscription CommonAzure.matchResourceGroup CommonAzure.matchResource
      CommonAzure.matchChildResource
    rw [hsplit]
    simp [hv.1]
  | subscription id =>
    refine ⟨.subscriptionId ("/subscriptions/".data ++ id) id id, ?_, rfl⟩
    have hsplit := splitSeg_render_sub id hv.2
    unfold CommonAzure.parseResourceId CommonAzure.matchTenant CommonAzure.matchManagementGroup
      CommonAzure.matchSubscription CommonAzure.matchResourceGroup CommonAzure.matchResource
      CommonAzure.matchChildResource
    rw [hsplit]
    simp [hv.1]
  | resourceGroup sub rg =>
    obtain ⟨hs, hr⟩ := hv
    refine ⟨.resourceGroupId ("/subscriptions/".data ++ sub ++ "/resourceGroups/".data ++ rg)
      rg sub rg, ?_, rfl⟩
    have hsplit := splitSeg_render_rg sub rg hs.2 hr.2
    unfold CommonAzure.parseResourceId CommonAzure.matchTenant CommonAzure.matchManagementGroup
      CommonAzure.matchSubscription CommonAzure.matchResourceGroup CommonAzure.matchResource
      CommonAzure.matchChildResource
    rw [hsplit]
    simp [hs.1, hr.1]
  | resource sub rg p ty n =>
    obtain ⟨hs, hr, hp, ht, hn⟩ := hv
    refine ⟨.resourceId ("/subscriptions/".data ++ sub ++ "/resourceGroups/".data ++ rg)
      n sub rg p ty, ?_, ?_⟩
    · have hsplit := splitSeg_render_resource sub rg p ty n hs.2 hr.2 hp.2 ht.2 hn.2
      unfold CommonAzure.parseResourceId CommonAzure.matchTenant CommonAzure.matchManagementGroup
        CommonAzure.matchSubscription CommonAzure.matchResourceGroup CommonAzure.matchResource
        CommonAzure.matchChildResource
      rw [hsplit]
      simp [hs.1, hr.1, hp.1, ht.1, hn.1]
    · simp only [CommonAzure.reconstructScope, Scope.Form.render, List.append_assoc]
  | childResource sub rg p ty n cty cn =>
    obtain ⟨hs, hr, hp, ht, hn, hct, hcn⟩ := hv
    refine ⟨.childResourceId
      ("/subscriptions/".data ++ sub ++ "/resourceGroups/".data ++ rg ++ "/providers/".data ++
        p ++ "/".data ++ ty ++ "/".data ++ n) cn sub rg p cty cn, ?_, ?_⟩
    · have hsplit := splitSeg_render_child sub rg p ty n cty cn hs.2 hr.2 hp.2 ht.2 hn.2 hct.2 hcn.2
      unfold CommonAzure.parseResourceId CommonAzure.matchTenant CommonAzure.matchManagementGroup
        CommonAzure.matchSubscription CommonAzure.matchResourceGroup CommonAzure.matchResource
        CommonAzure.matchChildResource
      rw [hsplit]
      simp [hs.1, hr.1, hp.1, ht.1, hn.1, hct.1, hcn.1]
    · simp only [CommonAzure.reconstructScope, Scope.Form.render, List.append_assoc]

/-- Witness for C8 at a concrete child-resource scope. -/
theorem parseResourceId_roundtrips_every_form_witness :
    Scope.Form.valid
      (.childResource "abc".data "rg1".data "Microsoft.Compute".data "virtualMachines".data
        "vm1".data "extensions".data "ext1".data) ∧
    ∃ v, CommonAzure.parseResourceId
        (Scope.Form.render (.childResource "abc".data "rg1".data "Microsoft.Compute".data
          "virtualMachines".data "vm1".data "extensions".data "ext1".data)) = some v ∧
      CommonAzure.reconstructScope v =
        Scope.Form.render (.childResource "abc".data "rg1".data "Microsoft.Compute".data
          "virtualMachines".data "vm1".data "extensions".data "ext1".data) :=
  ⟨by decide, parseResourceId_roundtrips_every_form _ (by decide)⟩

/-- The `src/api/azureResourceId.ts` parser also accepts every valid
rendered form (its six regexes are identical). -/
theorem apiParse_isSome_of_valid (f : Scope.Form) (hv : f.valid) :
    (ApiAzure.parseResourceId f.render).isSome = true := by
  cases f with
  | tenant id =>
    unfold ApiAzure.parseResourceId
    rw [splitSeg_render_tenant id hv.2]
    simp [hv.1]
  | managementGroup id =>
    unfold ApiAzure.parseResourceId
    rw [splitSeg_render_mg id hv.2]
    simp [hv.1]
  | subscription id =>
    unfold ApiAzure.parseResourceId
    rw [splitSeg_render_sub id hv.2]
    simp [hv.1]
  | resourceGroup sub rg =>
    obtain ⟨hs, hr⟩ := hv
    unfold ApiAzure.parseResourceId
    rw [splitSeg_render_rg sub rg hs.2 hr.2]
    simp [hs.1, hr.1]
  | resource sub rg p ty n =>
    obtain ⟨hs, hr, hp, ht, hn⟩ := hv
    unfold ApiAzure.parseResourceId
    rw [splitSeg_render_resource sub rg p ty n hs.2 hr.2 hp.2 ht.2 hn.2]
    simp [hs.1, hr.1, hp.1, ht.1, hn.1]
  | childResource sub rg p ty n cty cn =>
    obtain ⟨hs, hr, hp, ht, hn, hct, hcn⟩ := hv
    unfold ApiAzure.parseResourceId
    rw [splitSeg_render_child sub rg p ty n cty cn hs.2 hr.2 hp.2 ht.2 hn.2 hct.2 hcn.2]
    simp [hs.1, hr.1, hp.1, ht.1, hn.1, hct.1, hcn.1]

/-! ### C10: successful portal-URL extraction yields a parseable id -/

theorem wrapPortalError_ok_iff (u : Str) (e : Except Str Str) (s : Str) :
    PortalUrl.wrapPortalError u e = .ok s ↔ e = .ok s := by
  cases e <;> simp [PortalUrl.wrapPortalError]

/-- C10: whenever `getResourceIdFromPortalUrl` returns successfully, the
returned string is itself accepted by `parseResourceId` — every non-error
output of the portal-URL extractor is a valid resource id. -/
theorem portalUrl_output_parses (url s : Str)
    (h : PortalUrl.getResourceIdFromPortalUrl url = .ok s) :
    (ApiAzure.parseResourceId s).isSome = true := by
  rw [PortalUrl.getResourceIdFromPortalUrl, wrapPortalError_ok_iff] at h
  unfold PortalUrl.getResourceIdFromPortalUrlBody at h
  split at h
  · exact absurd h (by simp)
  · split at h
    · exact absurd h (by simp)
    · split at h
      · exact absurd h (by simp)
      next base hmatch =>
        split at h
        next v hparse =>
          split at h
          · exact absurd h (by simp)
          · injection h with h2
            subst h2
            simp [hparse]
        next hparse =>
          simp only [gt_iff_lt] at h
          split at h
          · split at h
            next v2 hparse2 =>
              split at h
              · exact absurd h (by simp)
              · injection h with h2
                subst h2
                simp [List.headD_eq_head?] at hparse2
                simp [hparse2]
            next => exact absurd h (by simp)
          · exact absurd h (by simp)

/-- Witness for C10: a concrete portal URL whose extraction succeeds. -/
theorem portalUrl_output_parses_witness :
    PortalUrl.getResourceIdFromPortalUrl
        "https://portal.azure.com/#@tenant1/resource/subscriptions/abc/overview".data =
      .ok "/subscriptions/abc".data ∧
    (ApiAzure.parseResourceId "/subscriptions/abc".data).isSome = true :=
  ⟨by decide,
    portalUrl_output_parses
      "https://portal.azure.com/#@tenant1/resource/subscriptions/abc/overview".data
      "/subscriptions/abc".data (by decide)⟩

/-! ### C3: the portal-URL round-trip -/

theorem not_mem_append {c : Char} {a b : Str} (ha : c ∉ a) (hb : c ∉ b) : c ∉ a ++ b :=
  fun h => (List.mem_append.mp h).elim (fun h1 => ha h1) (fun h1 => hb h1)

theorem isPrefixOf_append (l x : List Char) : l.isPrefixOf (l ++ x) = true := by
  induction l with
  | nil => cases x <;> rfl
  | cons c l ih => simp [List.isPrefixOf, ih]

theorem urlSafeChar_not_stripped {c : Char} (h : urlSafeChar c) :
    ¬(c = '\t' ∨ c = '\r' ∨ c = '\n') := by
  rintro (hc | hc | hc) <;> subst hc <;> exact absurd h (by decide)

theorem urlSafeChar_not_lineTerminator {c : Char} (h : urlSafeChar c) :
    ¬PortalUrl.isJsLineTerminator c := by
  obtain ⟨h1, h2, h3, h4, h5, h6⟩ := h
  rintro (hc | hc | hc | hc)
  · subst hc; revert h1; decide
  · subst hc; revert h1; decide
  · omega
  · omega

theorem urlSafeChar_not_encodeSet {c : Char} (h : urlSafeChar c) :
    ¬PortalUrl.inFragmentEncodeSet c := by
  obtain ⟨h1, h2, h3, h4, h5, h6⟩ := h
  rintro (hc | hc | hc | hc | hc | hc) <;> omega

theorem safe_append {a b : Str} (ha : ∀ c ∈ a, urlSafeChar c)
    (hb : ∀ c ∈ b, urlSafeChar c) : ∀ c ∈ a ++ b, urlSafeChar c :=
  fun c hc => (List.mem_append.mp hc).elim (ha c) (hb c)

theorem stripTabCRLF_eq_self {s : Str} (h : ∀ c ∈ s, urlSafeChar c) :
    PortalUrl.stripTabCRLF s = s := by
  unfold PortalUrl.stripTabCRLF
  exact List.filter_eq_self.mpr fun c hc => decide_eq_true (urlSafeChar_not_stripped (h c hc))

theorem encodeFragment_eq_self {s : Str} (h : ∀ c ∈ s, urlSafeChar c) :
    PortalUrl.encodeFragment s = s := by
  induction s with
  | nil => rfl
  | cons c rest ih =>
    rw [PortalUrl.encodeFragment, if_neg (urlSafeChar_not_encodeSet (h c (by simp)))]
    rw [ih fun c2 hc2 => h c2 (by simp [hc2])]
    rfl

theorem parseUrlCore_portal (x : Str) (hx : ∀ c ∈ x, urlSafeChar c) :
    PortalUrl.parseUrlCore ("https://portal.azure.com/#@/resource".data ++ x) =
      some { hostname := "portal.azure.com".data, hash := "#@/resource".data ++ x } := by
  have e : PortalUrl.parseUrlCore ("https://portal.azure.com/#@/resource".data ++ x) =
      some { hostname := "portal.azure.com".data
             hash := '#' :: PortalUrl.encodeFragment ("@/resource".data ++ x) } := rfl
  rw [e, encodeFragment_eq_self (safe_append (by decide) hx)]
  rfl

theorem parseUrl_portal (x : Str) (hx : ∀ c ∈ x, urlSafeChar c) :
    PortalUrl.parseUrl ("https://portal.azure.com/#@/resource".data ++ x) =
      some { hostname := "portal.azure.com".data, hash := "#@/resource".data ++ x } := by
  unfold PortalUrl.parseUrl
  rw [stripTabCRLF_eq_self (safe_append (by decide) hx)]
  exact parseUrlCore_portal x hx

theorem tryMarker_resource (x : Str) :
    PortalUrl.tryMarker ('#' :: '@' :: ("/resource".data ++ x)) =
      PortalUrl.matchResourceIdTail x := by
  have e : PortalUrl.tryMarker ('#' :: '@' :: ("/resource".data ++ x)) =
      (if "/resource".data.isPrefixOf ("/resource".data ++ x)
       then PortalUrl.matchResourceIdTail (("/resource".data ++ x).drop 9) else none) := rfl
  rw [e, isPrefixOf_append]
  rw [show (("/resource".data ++ x).drop 9) = x from rfl]
  simp

theorem matchPortalHash_marker_head (x r : Str) (h : PortalUrl.matchResourceIdTail x = some r) :
    PortalUrl.matchPortalHash ("#@/resource".data ++ x) = some r := by
  rw [show "#@/resource".data ++ x = '#' :: '@' :: ("/resource".data ++ x) from rfl,
    PortalUrl.matchPortalHash, tryMarker_resource, h]

theorem matchResourceIdTail_overview (rest : Str) (h1 : rest ≠ [])
    (h2 : ∀ c ∈ rest, ¬PortalUrl.isJsLineTerminator c) :
    PortalUrl.matchResourceIdTail (('/' :: rest) ++ "/overview".data) = some ('/' :: rest) := by
  have e : ('/' :: rest) ++ "/overview".data = ('/' :: rest) ++ '/' :: "overview".data := rfl
  rw [PortalUrl.matchResourceIdTail, e, splitLastSlash_append _ _ (by decide)]
  exact if_pos ⟨h1, h2, by decide⟩

theorem render_shape (f : Scope.Form) (hsf : f.urlSafe) :
    ∃ rest, f.render = '/' :: rest ∧ rest ≠ [] ∧ ∀ c ∈ rest, urlSafeChar c := by
  cases f with
  | tenant id =>
    exact ⟨_, rfl, by simp, safe_append (by decide) hsf⟩
  | managementGroup id =>
    exact ⟨_, rfl, by simp, safe_append (by decide) hsf⟩
  | subscription id =>
    exact ⟨_, rfl, by simp, safe_append (by decide) hsf⟩
  | resourceGroup sub rg =>
    obtain ⟨h1, h2⟩ := hsf
    refine ⟨_, rfl, by simp, ?_⟩
    exact safe_append (safe_append (safe_append (by decide) h1) (by decide)) h2
  | resource sub rg p ty n =>
    obtain ⟨h1, h2, h3, h4, h5⟩ := hsf
    refine ⟨_, rfl, by simp, ?_⟩
    exact safe_append (safe_append (safe_append (safe_append (safe_append (safe_append
      (safe_append (safe_append (safe_append (by decide) h1) (by decide)) h2)
        (by decide)) h3) (by decide)) h4) (by decide)) h5
  | childResource sub rg p ty n cty cn =>
    obtain ⟨h1, h2, h3, h4, h5, h6, h7⟩ := hsf
    refine ⟨_, rfl, by simp, ?_⟩
    exact safe_append (safe_append (safe_append (safe_append (safe_append (safe_append
      (safe_append (safe_append (safe_append (safe_append (safe_append (safe_append
        (safe_append (by decide) h1) (by decide)) h2) (by decide)) h3) (by decide)) h4)
          (by decide)) h5) (by decide)) h6) (by decide)) h7

/-- C3 counterexample: `fromPortalUrl(toPortalUrl(scope))` does NOT return
the scope — the extraction regex consumes a trailing view segment that
`toPortalUrl` never appends, so the round-trip fails even for the plain
subscription scope `/subscriptions/abc`; and the management-group portal
URL for `mg1` is not recognized at all. -/
theorem portal_roundtrip_counterexample :
    PortalUrl.getResourceIdFromPortalUrl
        (PortalUrl.getAzurePortalUrl "/subscriptions/abc".data none) ≠
      .ok "/subscriptions/abc".data ∧
    (PortalUrl.getResourceIdFromPortalUrl
        (PortalUrl.getAzurePortalUrl "/subscriptions/abc".data none)).isOk = false ∧
    (PortalUrl.getResourceIdFromPortalUrl
        (PortalUrl.getAzurePortalUrl
          "/providers/Microsoft.Management/managementGroups/mg1".data
          (some "managementgroup".data))).isOk = false := by
  refine ⟨by decide, by decide, by decide⟩

/-- C3 (amended): the portal-URL conversion round-trips only after a
trailing portal view segment (e.g. `/overview`) is appended to the
generated URL: for every valid non-management-group scope whose segments
consist of characters the URL machinery passes through a fragment
unchanged (printable ASCII above the space, minus the fragment
percent-encode set — scopes with spaces, quotes, angle brackets,
controls or non-ASCII get percent-encoded by `new URL` and so do not
round-trip even then), `fromPortalUrl(toPortalUrl(scope) ++ "/overview")
= scope`; `fromPortalUrl(toPortalUrl(scope))` itself fails, and
management-group URLs do not round-trip at all (shown here for the
management group `mg1`). -/
theorem portal_roundtrip_amended :
    (∀ (f : Scope.Form), f.nonMG → f.valid → f.urlSafe → ∀ st : Option Str,
      st ≠ some "managementgroup".data →
      PortalUrl.getResourceIdFromPortalUrl
        (PortalUrl.getAzurePortalUrl f.render st ++ "/overview".data) = .ok f.render) ∧
    (PortalUrl.getResourceIdFromPortalUrl
        (PortalUrl.getAzurePortalUrl
          "/providers/Microsoft.Management/managementGroups/mg1".data
          (some "managementgroup".data))).isOk = false := by
  constructor
  · intro f _ hv hsf st hst
    have hurl : PortalUrl.getAzurePortalUrl f.render st ++ "/overview".data =
        "https://portal.azure.com/#@/resource".data ++ (f.render ++ "/overview".data) := by
      unfold PortalUrl.getAzurePortalUrl
      rw [if_neg hst, List.append_assoc]
    obtain ⟨rest, hre, hrne, hrsafe⟩ := render_shape f hsf
    have hmt : PortalUrl.matchResourceIdTail (f.render ++ "/overview".data) = some f.render := by
      rw [hre]
      exact matchResourceIdTail_overview rest hrne
        (fun c hc => urlSafeChar_not_lineTerminator (hrsafe c hc))
    have hxsafe : ∀ c ∈ f.render ++ "/overview".data, urlSafeChar c := by
      rw [hre]
      refine safe_append (fun c hc => ?_) (by decide)
      rcases List.mem_cons.mp hc with h | h
      · subst h; decide
      · exact hrsafe c h
    obtain ⟨v, hvp⟩ := Option.isSome_iff_exists.mp (apiParse_isSome_of_valid f hv)
    have hbody : PortalUrl.getResourceIdFromPortalUrlBody
        ("https://portal.azure.com/#@/resource".data ++ (f.render ++ "/overview".data)) =
        .ok f.render := by
      unfold PortalUrl.getResourceIdFromPortalUrlBody
      rw [parseUrl_portal _ hxsafe]
      simp only [matchPortalHash_marker_head _ _ hmt, hvp, ne_eq]
      rw [if_neg (by simp)]
      simp [hre]
    rw [hurl, PortalUrl.getResourceIdFromPortalUrl, hbody]
    rfl
  · decide

/-- Witness for C3 (amended) at the subscription scope `/subscriptions/abc`. -/
theorem portal_roundtrip_amended_witness :
    Scope.Form.nonMG (.subscription "abc".data) ∧
    Scope.Form.valid (.subscription "abc".data) ∧
    Scope.Form.urlSafe (.subscription "abc".data) ∧
    (none : Option Str) ≠ some "managementgroup".data ∧
    PortalUrl.getResourceIdFromPortalUrl
        (PortalUrl.getAzurePortalUrl (Scope.Form.render (.subscription "abc".data)) none ++
          "/overview".data) =
      .ok (Scope.Form.render (.subscription "abc".data)) :=
  ⟨by decide, by decide, by decide, by decide,
    portal_roundtrip_amended.1 _ (by decide) (by decide) (by decide) none (by decide)⟩

/-! ### C1 / C9: the reconciliation lookup -/

theorem recordGet_cons (k1 : Str) (v1 : Option CommonRoleAssignmentScheduleInstance)
    (L : RoleToStatusLookup) (k : Str) :
    recordGet ((k1, v1) :: L) k = if k1 = k then some v1 else recordGet L k := by
  unfold recordGet
  by_cases h : k1 = k
  · subst h; simp [List.find?]
  · have hb : (k1 == k) = false := by simp [h]
    simp [List.find?, hb, h]

theorem recordGet_recordSet (l : RoleToStatusLookup) (k : Str)
    (v : Option CommonRoleAssignmentScheduleInstance) (k' : Str) :
    recordGet (recordSet l k v) k' = if k = k' then some v else recordGet l k' := by
  induction l with
  | nil =>
    simp [recordSet, recordGet_cons, recordGet]
  | cons e rest ih =>
    obtain ⟨k1, v1⟩ := e
    unfold recordSet
    by_cases h : k1 = k
    · subst h
      rw [if_pos rfl]
      by_cases h2 : k1 = k' <;> simp [recordGet_cons, h2]
    · rw [if_neg h, recordGet_cons, recordGet_cons, ih]
      by_cases h2 : k1 = k' <;> by_cases h3 : k = k'
      · exact absurd (h2.trans h3.symm) h
      · simp [h2, h3]
      · simp [h2, h3]
      · simp [h2, h3]

theorem recordGet_foldl_not_mem (asgns : List CommonRoleAssignmentScheduleInstance)
    (l : List EligibleRole) (init : RoleToStatusLookup) (k : Str)
    (h : k ∉ l.map EligibleRole.id) :
    recordGet (List.foldl
      (fun lookup role => recordSet lookup role.id (asgns.find? (roleAssignmentMatches role)))
      init l) k = recordGet init k := by
  induction l generalizing init with
  | nil => rfl
  | cons r rs ih =>
    simp only [List.map_cons, List.mem_cons, not_or] at h
    simp only [List.foldl_cons]
    rw [ih _ h.2, recordGet_recordSet, if_neg (fun hc => h.1 hc.symm)]

theorem keys_foldl (roles : List EligibleRole) (asgns : List CommonRoleAssignmentScheduleInstance)
    (init : RoleToStatusLookup) (k : Str) :
    (recordGet (List.foldl
      (fun lookup role => recordSet lookup role.id (asgns.find? (roleAssignmentMatches role)))
      init roles) k).isSome = true ↔
    k ∈ roles.map EligibleRole.id ∨ (recordGet init k).isSome = true := by
  induction roles generalizing init with
  | nil => simp
  | cons r rs ih =>
    simp only [List.foldl_cons, ih, List.map_cons, List.mem_cons]
    rw [recordGet_recordSet]
    by_cases h : r.id = k
    · simp [h]
    · simp [h, show ¬(k = r.id) from fun hc => h hc.symm]

/-- C9: the reconciliation lookup is total over its input and nothing
more: it has an entry for a key iff that key is the id of one of the
input eligible roles. -/
theorem reconcile_lookup_keys_iff (roles : List EligibleRole)
    (asgns : List CommonRoleAssignmentScheduleInstance) (k : Str) :
    (recordGet (roleStatusQueryFn roles asgns) k).isSome = true ↔
      k ∈ roles.map EligibleRole.id := by
  unfold roleStatusQueryFn
  rw [keys_foldl]
  simp [recordGet]

/-- C1 counterexample: two distinct graph assignments both match the one
graph eligible role, yet the lookup maps the role to the FIRST of them
(`graphAssignment1`), not to "no current assignment". -/
theorem reconcile_multiple_matches_counterexample :
    roleAssignmentMatches graphRole1 graphAssignment1 = true ∧
    roleAssignmentMatches graphRole1 graphAssignment2 = true ∧
    graphAssignment1 ≠ graphAssignment2 ∧
    recordGet (roleStatusQueryFn [graphRole1] [graphAssignment1, graphAssignment2])
        graphRole1.id = some (some graphAssignment1) := by decide

/-- C1 (amended): per eligible role (with pairwise-distinct role ids), the
lookup entry is `assignments.find?` — the FIRST matching assignment in
list order, or no assignment when none matches; multiple candidate
matches resolve to the first one, not to absence. -/
theorem reconcile_entry_is_first_match (roles : List EligibleRole)
    (asgns : List CommonRoleAssignmentScheduleInstance) (role : EligibleRole)
    (hmem : role ∈ roles) (hnodup : (roles.map EligibleRole.id).Nodup) :
    recordGet (roleStatusQueryFn roles asgns) role.id =
      some (asgns.find? (roleAssignmentMatches role)) ∧
    (∀ a, asgns.find? (roleAssignmentMatches role) = some a →
      roleAssignmentMatches role a = true ∧ a ∈ asgns) := by
  constructor
  · obtain ⟨l1, l2, rfl⟩ := List.append_of_mem hmem
    have hnotin : role.id ∉ l2.map EligibleRole.id := by
      rw [List.map_append, List.map_cons] at hnodup
      exact (List.nodup_cons.mp (List.Nodup.of_append_right hnodup)).1
    unfold roleStatusQueryFn
    rw [List.foldl_append]
    simp only [List.foldl_cons]
    rw [recordGet_foldl_not_mem _ _ _ _ hnotin, recordGet_recordSet, if_pos rfl]
  · intro a hf
    exact ⟨List.find?_some hf, List.mem_of_find?_eq_some hf⟩

/-- Witness for C1 (amended) on a one-role, two-assignment input. -/
theorem reconcile_entry_is_first_match_witness :
    graphRole1 ∈ [graphRole1] ∧ (([graphRole1].map EligibleRole.id).Nodup) ∧
    (recordGet (roleStatusQueryFn [graphRole1] [graphAssignment1, graphAssignment2])
        graphRole1.id =
      some ([graphAssignment1, graphAssignment2].find? (roleAssignmentMatches graphRole1)) ∧
    (∀ a, [graphAssignment1, graphAssignment2].find? (roleAssignmentMatches graphRole1) = some a →
      roleAssignmentMatches graphRole1 a = true ∧ a ∈ [graphAssignment1, graphAssignment2])) :=
  ⟨by decide, by decide,
    reconcile_entry_is_first_match [graphRole1] [graphAssignment1, graphAssignment2] graphRole1
      (by decide) (by decide)⟩

/-! ### C6 / C7: the per-sourceType matching rule -/

/-- C6: for an arm-sourced eligible role, an assignment matches iff its
`linkedRoleEligibilityScheduleInstanceId` equals the role's schedule id;
an assignment with a different (or absent) linked id never matches.  The
second hypothesis is the data-model invariant (§3 of the spec, enforced by
the normalizers) that only arm-sourced assignments carry the linked id. -/
theorem arm_match_iff_linked_id (role : EligibleRole)
    (a : CommonRoleAssignmentScheduleInstance)
    (h1 : role.schedule.sourceType = SourceType.arm)
    (h2 : a.sourceType ≠ SourceType.arm → a.linkedRoleEligibilityScheduleInstanceId = none) :
    roleAssignmentMatches role a = true ↔
      a.linkedRoleEligibilityScheduleInstanceId = some role.schedule.id := by
  unfold roleAssignmentMatches
  by_cases ha : a.sourceType = SourceType.arm
  · rw [if_pos ⟨h1, ha⟩]
    simp
  · rw [if_neg (fun hc => ha hc.2)]
    rw [if_neg (by rw [h1]; exact fun hc => ha hc.symm)]
    simp [h2 ha]

/-- Witness for C6: the linked arm assignment matches the arm role. -/
theorem arm_match_iff_linked_id_witness :
    armRole1.schedule.sourceType = SourceType.arm ∧
    (armAssignmentPending.sourceType ≠ SourceType.arm →
      armAssignmentPending.linkedRoleEligibilityScheduleInstanceId = none) ∧
    (roleAssignmentMatches armRole1 armAssignmentPending = true ↔
      armAssignmentPending.linkedRoleEligibilityScheduleInstanceId =
        some armRole1.schedule.id) :=
  ⟨by decide, by decide, arm_match_iff_linked_id armRole1 armAssignmentPending
    (by decide) (by decide)⟩

/-- C7: for a graph- or group-sourced eligible role, an assignment
matches iff it has the same `sourceType` and the identical triple
`(roleDefinitionId, scope, principalId)`; changing any one of the three
fields, or the sourceType, breaks the match. -/
theorem graph_group_match_iff_triple (role : EligibleRole)
    (a : CommonRoleAssignmentScheduleInstance)
    (h1 : role.schedule.sourceType = SourceType.graph ∨
      role.schedule.sourceType = SourceType.group) :
    roleAssignmentMatches role a = true ↔
      (a.sourceType = role.schedule.sourceType ∧
       a.roleDefinitionId = role.schedule.roleDefinitionId ∧
       a.scope = role.schedule.scope ∧
       a.principalId = role.schedule.principalId) := by
  unfold roleAssignmentMatches
  have hna : ¬(role.schedule.sourceType = SourceType.arm ∧ a.sourceType = SourceType.arm) := by
    rcases h1 with h | h <;> simp [h]
  rw [if_neg hna]
  by_cases he : role.schedule.sourceType = a.sourceType
  · rw [if_pos he]
    simp [Bool.and_eq_true, beq_iff_eq, he.symm, and_assoc]
  · rw [if_neg he]
    constructor
    · intro hc; exact absurd hc (by simp)
    · intro hc; exact absurd hc.1.symm he

/-- Witness for C7: `graphAssignment1` carries `graphRole1`'s triple. -/
theorem graph_group_match_iff_triple_witness :
    (graphRole1.schedule.sourceType = SourceType.graph ∨
      graphRole1.schedule.sourceType = SourceType.group) ∧
    (roleAssignmentMatches graphRole1 graphAssignment1 = true ↔
      (graphAssignment1.sourceType = graphRole1.schedule.sourceType ∧
       graphAssignment1.roleDefinitionId = graphRole1.schedule.roleDefinitionId ∧
       graphAssignment1.scope = graphRole1.schedule.scope ∧
       graphAssignment1.principalId = graphRole1.schedule.principalId)) :=
  ⟨by decide, graph_group_match_iff_triple graphRole1 graphAssignment1 (by decide)⟩

/-! ### C4: the newly-activated predicate -/

theorem tdiv_lt_five_iff (d : Int) : Int.tdiv d 60000 < 5 ↔ d < 300000 := by
  cases d with
  | ofNat n =>
    rw [show Int.tdiv (Int.ofNat n) 60000 = Int.ofNat (n / 60000) from rfl]
    simp only [Int.ofNat_eq_coe]
    omega
  | negSucc m =>
    rw [show Int.tdiv (Int.negSucc m) 60000 = -Int.ofNat ((m + 1) / 60000) from rfl]
    simp only [Int.ofNat_eq_coe, Int.negSucc_eq]
    omega

/-- C4 counterexample: with a matched assignment that started just now but
is NOT activated (its status is absent, so `isEligibleRoleActivated` is
false), `isEligibleRoleNewlyActivated` is nevertheless true — the
predicate does not require activation, contradicting the claimed
"activated and recent" iff. -/
theorem newlyActivated_without_activation_counterexample :
    isEligibleRoleNewlyActivated (some lookupPending) 0 armRole1 = true ∧
    isEligibleRoleActivated (some lookupPending) armRole1 = false := by decide

/-- C4 (amended): `isEligibleRoleNewlyActivated` is true iff the role has
a matched assignment with a `startDateTime` and `now − startDateTime`
is under 5 minutes (300000 ms, via dayjs's truncated minute difference) —
the activation status is not consulted.  It is false when there is no
matched assignment or the assignment has no `startDateTime`.  In
particular it is true at `startDateTime + 4m59s` and false at
`startDateTime + 5m01s`. -/
theorem newlyActivated_iff_recent_start (lookup : RoleToStatusLookup) (role : EligibleRole)
    (now : Int) :
    (recordGetValue lookup role.id = none →
      isEligibleRoleNewlyActivated (some lookup) now role = false) ∧
    ∀ a, recordGetValue lookup role.id = some a →
      ((a.startDateTime = none →
        isEligibleRoleNewlyActivated (some lookup) now role = false) ∧
       ∀ startT, a.startDateTime = some startT →
         (isEligibleRoleNewlyActivated (some lookup) now role = true ↔
           now - startT < 300000)) := by
  constructor
  · intro h
    simp only [isEligibleRoleNewlyActivated, h]
  · intro a ha
    simp only [isEligibleRoleNewlyActivated, ha]
    constructor
    · intro hs
      rw [hs]
    · intro startT hs
      rw [hs]
      simp [dayjsDiffMinutes, tdiv_lt_five_iff]

/-- Witness for C4 (amended): the boundary instants 4m59s and 5m01s after
a start at time 0. -/
theorem newlyActivated_iff_recent_start_witness :
    recordGetValue lookupPending armRole1.id = some armAssignmentPending ∧
    armAssignmentPending.startDateTime = some 0 ∧
    (isEligibleRoleNewlyActivated (some lookupPending) 299000 armRole1 = true ↔
      (299000 : Int) - 0 < 300000) ∧
    (isEligibleRoleNewlyActivated (some lookupPending) 301000 armRole1 = true ↔
      (301000 : Int) - 0 < 300000) :=
  ⟨by decide, by decide,
    ((newlyActivated_iff_recent_start lookupPending armRole1 299000).2 armAssignmentPending
      (by decide)).2 0 (by decide),
    ((newlyActivated_iff_recent_start lookupPending armRole1 301000).2 armAssignmentPending
      (by decide)).2 0 (by decide)⟩

/-! ### C5: the normalizers never fail -/

/-- C5 counterexample: `armScheduleToCommon` applied to a provider record
missing BOTH mandatory identifiers (and everything else) does not fail —
no `IncompleteProviderRecord` error exists in the code — it returns a
normal record with empty-string identifiers and sentinel display names. -/
theorem normalizer_never_fails_counterexample :
    armScheduleToCommon emptyArmSchedule =
      { id := [], scope := [], roleDefinitionId := []
        roleDefinitionDisplayName := "Unknown Role".data
        scopeDisplayName := "Unknown Scope".data
        scopeType := none, principalId := [], principalDisplayName := none
        startDateTime := none, endDateTime := none, sourceType := .arm } ∧
    (fromArmAssignment emptyArmAssignment).roleDefinitionId = [] := by decide

/-- C5 (amended): the normalizers are total and never fail; missing
mandatory identifiers (role definition id, principal id) are defaulted to
the empty string; the schedule normalizer replaces missing display names
with the sentinels "Unknown Role" / "Unknown Scope", while the assignment
normalizer leaves missing display names absent; both tag their output
with sourceType arm. -/
theorem normalizers_default_instead_of_failing
    (s : RoleEligibilityScheduleInstance) (a : RoleAssignmentScheduleInstance) :
    (s.roleDefinitionId = none → (armScheduleToCommon s).roleDefinitionId = []) ∧
    (s.principalId = none → (armScheduleToCommon s).principalId = []) ∧
    (s.expandedProperties = none →
      (armScheduleToCommon s).roleDefinitionDisplayName = "Unknown Role".data ∧
      (armScheduleToCommon s).scopeDisplayName = "Unknown Scope".data) ∧
    (armScheduleToCommon s).sourceType = SourceType.arm ∧
    (a.roleDefinitionId = none → (fromArmAssignment a).roleDefinitionId = []) ∧
    (a.principalId = none → (fromArmAssignment a).principalId = []) ∧
    (a.expandedProperties = none →
      (fromArmAssignment a).roleDefinitionDisplayName = none) ∧
    (fromArmAssignment a).sourceType = SourceType.arm := by
  refine ⟨?_, ?_, ?_, rfl, ?_, ?_, ?_, rfl⟩ <;> intro h <;>
    simp [armScheduleToCommon, fromArmAssignment, h]

/-- Witness for C5 (amended) at the all-absent provider records. -/
theorem normalizers_default_instead_of_failing_witness :
    (armScheduleToCommon emptyArmSchedule).roleDefinitionId = [] ∧
    ((armScheduleToCommon emptyArmSchedule).roleDefinitionDisplayName = "Unknown Role".data ∧
      (armScheduleToCommon emptyArmSchedule).scopeDisplayName = "Unknown Scope".data) ∧
    (fromArmAssignment emptyArmAssignment).roleDefinitionDisplayName = none :=
  ⟨(normalizers_default_instead_of_failing emptyArmSchedule emptyArmAssignment).1 rfl,
    (normalizers_default_instead_of_failing emptyArmSchedule emptyArmAssignment).2.2.1 rfl,
    (normalizers_default_instead_of_failing emptyArmSchedule
      emptyArmAssignment).2.2.2.2.2.2.1 rfl⟩

/-! ### C2: the missing-subscription error is a plain Error -/

/-- C2: resolving the tenant for `/subscriptions/sub-x` against a cached
subscription list that lacks `sub-x` fails with the PLAIN JS
`Error('SubscriptionId not found')`, not with the
`FetchTenantSubscriptionNotFoundError` subclass.  That subclass is
declared (and matched on by the rendering callers) but never thrown
anywhere, so callers cannot discriminate the condition — the claim
describes the intended behavior, the code a slip. -/
theorem subscription_not_found_is_generic_error :
    fetchTenantIdFromResourceId emptyTenantEnv "/subscriptions/sub-x".data =
      .error (JsError.error "SubscriptionId not found".data) := by decide
